import Mathlib

/-
  Verification development for the grading harness in grader.py.

  The Python source is shallowly embedded: pure string manipulation is
  translated to executable Lean functions over List Char / String, the
  stateful capture machinery (mock_input / capture_output_and_files) becomes
  explicit state passing over a CaptureState record, the timeout-guarded
  executor becomes a function on an explicit outcome datatype, and the
  per-submission pipeline (process_project / main) becomes Except-valued
  state passing where a propagating Python exception is an Except.error.
-/

namespace Grader

/-! ## Character-level models of the Python string methods used by grader.py -/

/-- Python whitespace test used by str.strip / str.rstrip (ASCII subset:
space, tab, carriage return, newline; the further Unicode whitespace
characters never occur in the grader's data). -/
def isPySpace (c : Char) : Bool := c.isWhitespace

/-- Model of Python str.lstrip on a character list: drop the maximal
whitespace prefix. -/
def pyStripLeftL (l : List Char) : List Char := l.dropWhile isPySpace

/-- Model of Python str.rstrip on a character list: drop the maximal
whitespace suffix. -/
def pyStripRightL (l : List Char) : List Char := (l.reverse.dropWhile isPySpace).reverse

/-- Model of Python str.strip on a character list: drop whitespace at both
ends. -/
def pyStripL (l : List Char) : List Char := pyStripRightL (pyStripLeftL l)

/-- Model of Python str.rstrip at String level (used for the prompt echo in
mock_input, line 85 of grader.py). -/
def pyRstrip (s : String) : String := ⟨pyStripRightL s.data⟩

/-- Helper for pySplitlines: accumulates the current (reversed) line. -/
def pySplitlinesAux : List Char → List Char → List (List Char)
  | [], acc => if acc.isEmpty then [] else [acc.reverse]
  | c :: rest, acc =>
    if c = '\n' then acc.reverse :: pySplitlinesAux rest []
    else pySplitlinesAux rest (c :: acc)

/-- Model of Python str.splitlines (newline-separated; the grader's stdout
buffer only ever contains text produced by print, whose separator is the
newline character): splits at each newline, no trailing empty entry. -/
def pySplitlines (s : String) : List String :=
  (pySplitlinesAux s.data []).map (fun l => ⟨l⟩)

/-- Helper for pyReadlines: accumulates the current (reversed) line; kept
lines retain their terminating newline, a final unterminated line is kept
as-is, exactly as Python file.readlines does. -/
def pyReadlinesAux : List Char → List Char → List (List Char)
  | [], acc => if acc.isEmpty then [] else [acc.reverse]
  | c :: rest, acc =>
    if c = '\n' then (acc.reverse ++ ['\n']) :: pyReadlinesAux rest []
    else pyReadlinesAux rest (c :: acc)

/-- Model of Python f.readlines() on the raw character content of the file. -/
def pyReadlines (content : List Char) : List (List Char) := pyReadlinesAux content []

/-- Embedding of load_input_prompts (grader.py lines 20-23): the file content
is passed explicitly; the body is the comprehension
[line.strip() for line in f.readlines()]. -/
def load_input_prompts (content : String) : List String :=
  (pyReadlines content.data).map (fun l => ⟨pyStripL l⟩)

/-! ## Folder-name derivation (create_project_folder) -/

/-- The character sequence of the extension string '.py'. -/
def pyExt : List Char := ['.', 'p', 'y']

/-- Whether a character list begins with the three characters '.py'. -/
def startsWithPy : List Char → Bool
  | c :: p :: q :: _ => c == '.' && p == 'p' && q == 'y'
  | _ => false

/-- Whether '.py' occurs anywhere in a character list. -/
def containsPy : List Char → Bool
  | [] => false
  | c :: rest => startsWithPy (c :: rest) || containsPy rest

/-- Model of Python str.replace('.py', ''): remove every non-overlapping
occurrence of '.py', scanning left to right.  Lists shorter than the
pattern cannot contain it and are returned unchanged. -/
def replacePy : List Char → List Char
  | [] => []
  | [c] => [c]
  | [c, d] => [c, d]
  | c :: p :: q :: rest =>
    if startsWithPy (c :: p :: q :: rest) then replacePy rest
    else c :: replacePy (p :: q :: rest)

/-- Embedding of create_project_folder (grader.py lines 33-38): the returned
folder name is project_name.replace('.py', ''); the mkdir side effect is
modelled at the process_project level. -/
def create_project_folder (project_name : String) : String :=
  ⟨replacePy project_name.data⟩

/-- Spec-side definition, following the words of the specification (section
6, per-submission output folder named after the submission file with its
suffix stripped): remove a trailing '.py' suffix only. -/
def stripPySuffix (name : List Char) : List Char :=
  if pyExt.isSuffixOf name then name.take (name.length - 3) else name

/-! ## Timeout-guarded executor (run_with_timeout, grader.py lines 40-63)

The zero-argument callable handed to run_with_timeout is represented by the
outcome of running it: it either returns a value, raises an ordinary
Exception (caught by the worker's except clause, which records str(e) and
traceback.format_exc()), raises a BaseException outside the Exception class
(such as SystemExit, which the except clause does not catch), or fails to
finish within the timeout.  Python values are Option-valued so that the
Python value None is representable (Option.none). -/

inductive FuncOutcome (α : Type) where
  | ret (v : α)
  | exc (msg trace : String)
  | baseExc (msg : String)
  | diverge
deriving DecidableEq

/-- The timeout message built at grader.py line 58. -/
def timeoutMessage (timeout_duration : Nat) : String :=
  "Program execution timed out after " ++ toString timeout_duration ++ " seconds"

/-- The state of the result and error lists after the worker's target()
function has finished (grader.py lines 45-50): a returned value is appended
to result; an Exception appends str(e) and the formatted traceback to error;
a BaseException escapes target() without touching either list. -/
def workerRun {α : Type} : FuncOutcome α → List α × List String
  | FuncOutcome.ret v => ([v], [])
  | FuncOutcome.exc m tr => ([], [m, tr])
  | FuncOutcome.baseExc _ => ([], [])
  | FuncOutcome.diverge => ([], [])

/-- Embedding of run_with_timeout (grader.py lines 40-63).  The is_alive
check after join corresponds to the diverge outcome; otherwise the worker
has finished and the result/error lists are as left by target():
if error is non-empty return (None, error), else return
(result[0] if result else None, None). -/
def run_with_timeout {α : Type} (o : FuncOutcome (Option α))
    (timeout_duration : Nat := 10) : Option α × Option (List String) :=
  match o with
  | FuncOutcome.diverge => (none, some [timeoutMessage timeout_duration])
  | o =>
    let re := workerRun o
    if re.2 ≠ [] then (none, some re.2)
    else (re.1.headD none, none)

/-! ## I/O capture shim (capture_output_and_files and mock_input,
grader.py lines 65-137)

The nonlocal state mutated by mock_input is gathered in CaptureState.  The
executed submission's observable behaviour is a list of events: each print
appends its text plus a newline to the redirected stdout buffer, each
input(prompt) call invokes mock_input. -/

structure CaptureState where
  captured_lines : List String
  input_idx : Nat
  stdout_buffer : String
deriving DecidableEq

/-- Embedding of mock_input (grader.py lines 74-92): flush the pending
stdout buffer into captured_lines (splitting it into lines and truncating
the buffer), append the rstripped prompt if the prompt is non-empty, then
either echo and return the next scripted line (advancing input_idx) or
return the fallback value '9' without advancing and without echoing. -/
def mock_input (input_prompts : List String) (prompt : String)
    (st : CaptureState) : String × CaptureState :=
  let st1 :=
    if st.stdout_buffer ≠ "" then
      { st with captured_lines := st.captured_lines ++ pySplitlines st.stdout_buffer,
                stdout_buffer := "" }
    else st
  let st2 :=
    if prompt ≠ "" then
      { st1 with captured_lines := st1.captured_lines ++ [pyRstrip prompt] }
    else st1
  if h : st2.input_idx < input_prompts.length then
    let value := input_prompts.get ⟨st2.input_idx, h⟩
    (value, { st2 with captured_lines := st2.captured_lines ++ [value],
                       input_idx := st2.input_idx + 1 })
  else
    ("9", st2)

/-- One observable action of the executed entry point: printing a string
(print appends the string plus a newline to the redirected stdout buffer)
or calling input with a prompt. -/
inductive Ev where
  | prnt (s : String)
  | inp (prompt : String)
deriving DecidableEq

/-- Run a list of events against the capture state. -/
def runEvents (input_prompts : List String) : List Ev → CaptureState → CaptureState
  | [], st => st
  | Ev.prnt s :: rest, st =>
      runEvents input_prompts rest
        { st with stdout_buffer := st.stdout_buffer ++ s ++ "\n" }
  | Ev.inp p :: rest, st =>
      runEvents input_prompts rest (mock_input input_prompts p st).2

/-- A loaded submission module: whether it has a main attribute, the I/O
events main performs while running, and how main finishes (FuncOutcome over
Option Unit: a Python procedure returns None). -/
structure Module where
  hasMain : Bool
  events : List Ev
  outcome : FuncOutcome (Option Unit)
deriving DecidableEq

/-- The missing-entry-point message (grader.py line 105). -/
def noMainMsg : String := "Error: No main() function found in student's code"

/-- The body of the try block of capture_output_and_files (grader.py lines
97-110): if the module has a main attribute, run it under the timeout guard
(the events mutate the shared capture state, the outcome determines the
error list returned by run_with_timeout, which is appended to
captured_lines when present); otherwise append the missing-entry-point
message.  Afterwards the remaining stdout buffer is split into lines and
appended — note the source does not truncate the buffer here. -/
def capture_body (module : Module) (input_prompts : List String) : CaptureState :=
  let st0 : CaptureState := ⟨[], 0, ""⟩
  let st :=
    if module.hasMain then
      let st := runEvents input_prompts module.events st0
      match (run_with_timeout module.outcome 10).2 with
      | some e => { st with captured_lines := st.captured_lines ++ e }
      | none => st
    else
      { st0 with captured_lines := st0.captured_lines ++ [noMainMsg] }
  if st.stdout_buffer ≠ "" then
    { st with captured_lines := st.captured_lines ++ pySplitlines st.stdout_buffer }
  else st

/-- The process-wide slot builtins.input: originally the builtin, replaced
by the mock during capture; other values model any previously installed
replacement. -/
inductive InputSlot where
  | builtin
  | mock
  | other (name : String)
deriving DecidableEq

/-- The mutable global state relevant to the capture shim. -/
structure Globals where
  input : InputSlot
deriving DecidableEq

/-- Which control path the wrapped phase of capture_output_and_files takes:
either the try body runs to completion (normal — covering main returning,
raising inside the executor, timing out, or main being absent), or an
exception escapes the wrapped phase itself and is caught by the except
clause at grader.py lines 112-114, which appends an error line and the
traceback to whatever had been captured at the raise point. -/
inductive CapturePath where
  | normal
  | phaseRaised (stAtRaise : CaptureState) (msg trace : String)
deriving DecidableEq

/-- Embedding of capture_output_and_files (grader.py lines 65-137): saves
builtins.input, installs the mock, runs the wrapped phase (try body or
except clause), and in the finally block unconditionally restores the saved
input function.  Returns captured_lines together with the final globals.
The file-harvest part of the finally block only touches the file system and
appends file-move error lines; it is not modelled here (no claim depends on
it). -/
def capture_output_and_files (module : Module) (input_prompts : List String)
    (path : CapturePath) (g : Globals) : List String × Globals :=
  let original_input := g.input
  let _gDuring : Globals := { input := InputSlot.mock }
  let st : CaptureState :=
    match path with
    | CapturePath.normal => capture_body module input_prompts
    | CapturePath.phaseRaised stRaise m tr =>
        { stRaise with captured_lines :=
            stRaise.captured_lines ++ ["Error occurred: " ++ m, tr] }
  let gAfter : Globals := { input := original_input }
  (st.captured_lines, gAfter)

/-! ## Compositional transcript specification

A submission's interaction can be grouped into segments: the prints before
each input call paired with that call's prompt, plus the trailing prints.
transcriptSpec gives the transcript such a program should produce, with each
print segment contributing its lines exactly once. -/

/-- Join a list of printed strings the way print writes them into the
stdout buffer: each string followed by a newline. -/
def joinNl : List String → String
  | [] => ""
  | s :: rest => s ++ "\n" ++ joinNl rest

/-- Flatten a segmented program (print-block and prompt per input call,
plus trailing prints) into its event list. -/
def toEvents : List (List String × String) → List String → List Ev
  | [], tailPrints => tailPrints.map Ev.prnt
  | (ps, pr) :: rest, tailPrints =>
      ps.map Ev.prnt ++ [Ev.inp pr] ++ toEvents rest tailPrints

/-- The intended transcript of a segmented program, starting with the input
cursor at i: for each segment the print block's lines once, then the
rstripped prompt when non-empty, then the echoed scripted value when the
cursor is still within the script (advancing it), and finally the trailing
print block's lines once. -/
def transcriptSpec (input_prompts : List String) :
    Nat → List (List String × String) → List String → List String
  | _, [], tailPrints => pySplitlines (joinNl tailPrints)
  | i, (ps, pr) :: rest, tailPrints =>
      pySplitlines (joinNl ps)
        ++ (if pr ≠ "" then [pyRstrip pr] else [])
        ++ (if i < input_prompts.length then [input_prompts.getD i ""] else [])
        ++ transcriptSpec input_prompts
             (if i < input_prompts.length then i + 1 else i) rest tailPrints

/-! ## Per-submission pipeline (process_project, grader.py lines 139-182)
and batch controller (main, lines 184-192)

Python exceptions are modelled with Except: a step that raises produces an
Except.error carrying the exception message.  ProcEnv fixes the outcome of
every fallible external step, so process_project becomes a total function
on it.  The error value of process_project's result type tracks whether an
exception propagates out of process_project.  The except clause at line
165 catches every Exception, but import_student_module (line 146) executes
the submission's top level in the main thread (exec_module, line 30), and
a BaseException raised there — such as the SystemExit from a top-level
sys.exit() — is not caught and propagates out of process_project, aborting
the batch.  The remaining steps (makedirs, open, write, shutil.move) run
only grader code and are modelled as raising ordinary Exceptions; the
entry point itself runs on the executor's worker thread, where a
BaseException dies with the thread (FuncOutcome.baseExc). -/

/-- The outcome of import_student_module for one submission: the loaded
module; an ordinary Exception (syntax error, or the top level raising an
Exception), caught by process_project's except clause; or a BaseException
raised by the top-level code (e.g. SystemExit from sys.exit()), which
except Exception does not catch. -/
inductive ImportOutcome where
  | ok (module : Module)
  | exc (msg : String)
  | baseExc (msg : String)
deriving DecidableEq

/-- Whether an import outcome is the uncatchable BaseException case. -/
def ImportOutcome.isBaseExc : ImportOutcome → Bool
  | ImportOutcome.baseExc _ => true
  | _ => false

/-- How the try block of process_project fails, when it does: an ordinary
Exception is handled by the except clause (carrying the folder name bound
so far), while a BaseException propagates uncaught. -/
inductive TryFailure where
  | caught (boundFolder : Option String) (msg : String)
  | uncaught (msg : String)

instance exceptDecEq {ε α : Type} [DecidableEq ε] [DecidableEq α] :
    DecidableEq (Except ε α)
  | Except.error a, Except.error b =>
    if h : a = b then isTrue (by rw [h])
    else isFalse (fun hh => by cases hh; exact h rfl)
  | Except.error _, Except.ok _ => isFalse (fun hh => by cases hh)
  | Except.ok _, Except.error _ => isFalse (fun hh => by cases hh)
  | Except.ok a, Except.ok b =>
    if h : a = b then isTrue (by rw [h])
    else isFalse (fun hh => by cases hh; exact h rfl)

/-- The outcomes of the external steps taken by process_project for one
submission, plus the submission's observable behaviour. -/
structure ProcEnv where
  project_file : String
  /-- os.makedirs failure inside create_project_folder, if any. -/
  createRaises : Option String
  /-- Result of import_student_module: the loaded module, the message of an
  ordinary load-time Exception, or the message of an uncatchable
  BaseException raised by the submission's top-level code. -/
  importResult : ImportOutcome
  /-- Content of input.txt, or the message of the exception open raises
  when the file is absent. -/
  inputContent : Except String String
  /-- Which path the wrapped phase of capture takes. -/
  capturePath : CapturePath
  /-- Failure writing output.txt, if any. -/
  writeRaises : Option String
  /-- Whether os.path.exists(project_file) holds before the move. -/
  srcExists : Bool
  /-- shutil.move failure for the source file, if any. -/
  moveRaises : Option String
  /-- Failure of the fallback's makedirs/write of the error output, if any. -/
  fbWriteRaises : Option String
  /-- Failure of the fallback's move of the source file, if any. -/
  fbMoveRaises : Option String
  /-- The formatted traceback text of the exception that triggered the
  fallback (traceback.format_exc()). -/
  traceText : String
deriving DecidableEq

/-- The observable per-submission result of process_project. -/
inductive ProcResult where
  /-- The try block completed: folder created, output.txt written with the
  newline-joined transcript, and the source file moved when it existed. -/
  | success (folder : String) (outputContent : String) (movedSource : Bool)
  /-- The except block completed: output.txt written with the error message
  and traceback, the source file moved when it existed. -/
  | errorArchived (folder : String) (outputContent : String) (movedSource : Bool)
  /-- Even the fallback failed; the failure was only printed to the
  console. -/
  | errorLogged (msg : String)
deriving DecidableEq

/-- The try block of process_project (grader.py lines 141-163).  A caught
failure carries the folder name bound so far (none when
create_project_folder itself raised, in which case the fallback's
reference to folder_name raises UnboundLocalError) together with the
exception message; a BaseException during import is an uncaught failure. -/
def process_project_try (env : ProcEnv) : Except TryFailure ProcResult :=
  match env.createRaises with
  | some m => Except.error (TryFailure.caught none m)
  | none =>
    let folder := create_project_folder env.project_file
    match env.importResult with
    | ImportOutcome.baseExc m => Except.error (TryFailure.uncaught m)
    | ImportOutcome.exc m => Except.error (TryFailure.caught (some folder) m)
    | ImportOutcome.ok module =>
      match env.inputContent with
      | Except.error m => Except.error (TryFailure.caught (some folder) m)
      | Except.ok content =>
        let input_prompts := load_input_prompts content
        let output :=
          (capture_output_and_files module input_prompts env.capturePath
            ⟨InputSlot.builtin⟩).1
        match env.writeRaises with
        | some m => Except.error (TryFailure.caught (some folder) m)
        | none =>
          let outContent := String.intercalate "\n" output
          if env.srcExists then
            match env.moveRaises with
            | some m => Except.error (TryFailure.caught (some folder) m)
            | none => Except.ok (ProcResult.success folder outContent true)
          else Except.ok (ProcResult.success folder outContent false)

/-- The except block of process_project (grader.py lines 165-182): print
the failure, then best-effort write an error output file and move the
source; every exception inside this fallback is caught and printed.  When
folder_name was never bound, referencing it raises UnboundLocalError,
caught by the inner except. -/
def process_project_fallback (env : ProcEnv) (boundFolder : Option String)
    (e : String) : ProcResult :=
  match boundFolder with
  | none => ProcResult.errorLogged "local variable referenced before assignment"
  | some folder =>
    match env.fbWriteRaises with
    | some m => ProcResult.errorLogged m
    | none =>
      let content := "Error processing project: " ++ e ++ "\n" ++ env.traceText
      if env.srcExists then
        match env.fbMoveRaises with
        | some m => ProcResult.errorLogged m
        | none => ProcResult.errorArchived folder content true
      else ProcResult.errorArchived folder content false

/-- Embedding of process_project (grader.py lines 139-182): the try block,
with every caught Exception routed to the fallback of the except clause at
line 165, and a BaseException raised during import propagating out as an
Except.error. -/
def process_project (env : ProcEnv) : Except String ProcResult :=
  match process_project_try env with
  | Except.ok r => Except.ok r
  | Except.error (TryFailure.caught boundFolder e) =>
      Except.ok (process_project_fallback env boundFolder e)
  | Except.error (TryFailure.uncaught m) => Except.error m

/-- Embedding of main's loop over the discovered submission files
(grader.py lines 184-192): process each in order; an exception propagating
out of process_project would abort the whole batch (an Except.error). -/
def grader_main : List ProcEnv → Except String (List ProcResult)
  | [] => Except.ok []
  | env :: rest =>
    match process_project env with
    | Except.error m => Except.error m
    | Except.ok r =>
      match grader_main rest with
      | Except.error m => Except.error m
      | Except.ok rs => Except.ok (r :: rs)

/-! ## Helper lemmas -/

theorem pySplitlines_empty : pySplitlines "" = [] := rfl

/-- Canonical form of one mock_input call: both branches of the flush
conditional, the prompt conditional, and the cursor conditional collapse
into a single state expression. -/
theorem mock_input_run (P : List String) (p : String) (c : List String)
    (i : Nat) (buf : String) :
    mock_input P p ⟨c, i, buf⟩ =
      ((if i < P.length then P.getD i "" else "9"),
       ⟨c ++ pySplitlines buf ++ (if p ≠ "" then [pyRstrip p] else [])
          ++ (if i < P.length then [P.getD i ""] else []),
        if i < P.length then i + 1 else i, ""⟩) := by
  by_cases hi : i < P.length
  · by_cases hb : buf = "" <;> by_cases hp : p = "" <;>
      simp [mock_input, hb, hp, hi, pySplitlines_empty,
        List.getD_eq_getElem?_getD, List.getElem?_eq_getElem hi]
  · by_cases hb : buf = "" <;> by_cases hp : p = "" <;>
      simp [mock_input, hb, hp, hi, pySplitlines_empty]

theorem mock_input_run_nolt (P : List String) (p : String) (c : List String)
    (i : Nat) (buf : String) (hi : ¬ i < P.length) :
    mock_input P p ⟨c, i, buf⟩ =
      ("9", ⟨c ++ pySplitlines buf ++ (if p ≠ "" then [pyRstrip p] else []),
        i, ""⟩) := by
  rw [mock_input_run]
  simp [hi]

theorem runEvents_prnts (P : List String) (ss : List String) (c : List String)
    (i : Nat) (buf : String) :
    runEvents P (ss.map Ev.prnt) ⟨c, i, buf⟩ = ⟨c, i, buf ++ joinNl ss⟩ := by
  induction ss generalizing buf with
  | nil => simp [runEvents, joinNl]
  | cons s rest ih =>
    simp only [List.map_cons, runEvents, joinNl, ih]
    simp [String.append_assoc]

theorem runEvents_append (P : List String) (a b : List Ev) (st : CaptureState) :
    runEvents P (a ++ b) st = runEvents P b (runEvents P a st) := by
  induction a generalizing st with
  | nil => rfl
  | cons e rest ih => cases e <;> simp [runEvents, ih]

/-- Running a segmented program from a state with an empty buffer produces
exactly the compositional transcript, each print block contributing its
lines once. -/
theorem runEvents_toEvents (P : List String) (segs : List (List String × String))
    (tailPrints : List String) (c : List String) (i : Nat) :
    (runEvents P (toEvents segs tailPrints) ⟨c, i, ""⟩).captured_lines
      ++ pySplitlines (runEvents P (toEvents segs tailPrints) ⟨c, i, ""⟩).stdout_buffer
    = c ++ transcriptSpec P i segs tailPrints := by
  induction segs generalizing c i with
  | nil =>
    rw [toEvents, runEvents_prnts]
    simp [transcriptSpec, String.empty_append]
  | cons seg rest ih =>
    obtain ⟨ps, pr⟩ := seg
    rw [toEvents, runEvents_append, runEvents_append, runEvents_prnts,
      String.empty_append]
    simp only [runEvents]
    rw [mock_input_run, ih]
    simp [transcriptSpec, List.append_assoc]

/-- When the guarded main run reports no error (a normal return, or a
BaseException the worker does not catch), the transcript is the captured
lines followed by the lines of the remaining stdout buffer. -/
theorem capture_body_noerror (module : Module) (P : List String)
    (hm : module.hasMain = true)
    (he : (run_with_timeout module.outcome 10).2 = none) :
    (capture_body module P).captured_lines =
      (runEvents P module.events ⟨[], 0, ""⟩).captured_lines
        ++ pySplitlines (runEvents P module.events ⟨[], 0, ""⟩).stdout_buffer := by
  unfold capture_body
  rw [hm, he]
  by_cases hb : (runEvents P module.events ⟨[], 0, ""⟩).stdout_buffer = "" <;>
    simp [hb, pySplitlines_empty]

/-- The full transcript returned by capture_output_and_files for a
segmented program whose main returns normally. -/
theorem capture_segments (P : List String) (segs : List (List String × String))
    (tailPrints : List String) (g : Globals) :
    (capture_output_and_files
        ⟨true, toEvents segs tailPrints, FuncOutcome.ret none⟩ P
        CapturePath.normal g).1
      = transcriptSpec P 0 segs tailPrints := by
  show (capture_body ⟨true, toEvents segs tailPrints, FuncOutcome.ret none⟩ P).captured_lines = _
  rw [capture_body_noerror ⟨true, toEvents segs tailPrints, FuncOutcome.ret none⟩ P rfl rfl]
  rw [show (Module.mk true (toEvents segs tailPrints) (FuncOutcome.ret none)).events
      = toEvents segs tailPrints from rfl]
  rw [runEvents_toEvents]
  simp

/-! ## Claim theorems -/

/-- Claim C1: run_with_timeout returns (value, no error) when the worker
finishes in time without raising, (no value, [error message, trace]) when
it finishes in time having raised an ordinary Exception, and
(no value, [timeout message]) when it does not finish within the timeout. -/
theorem run_with_timeout_contract (α : Type) (o : FuncOutcome (Option α)) (t : Nat) :
    (∀ v, o = FuncOutcome.ret v → run_with_timeout o t = (v, none)) ∧
    (∀ m tr, o = FuncOutcome.exc m tr →
      run_with_timeout o t = (none, some [m, tr])) ∧
    (o = FuncOutcome.diverge →
      run_with_timeout o t = (none, some [timeoutMessage t])) := by
  refine ⟨?_, ?_, ?_⟩
  · intro v h
    subst h
    simp [run_with_timeout, workerRun]
  · intro m tr h
    subst h
    simp [run_with_timeout, workerRun]
  · intro h
    subst h
    simp [run_with_timeout]

/-- Witness for C1 at concrete outcomes. -/
theorem run_with_timeout_contract_witness :
    run_with_timeout (FuncOutcome.ret (some 3)) 10 = (some 3, none) ∧
    run_with_timeout (FuncOutcome.exc "boom" "tb" : FuncOutcome (Option Nat)) 10
      = (none, some ["boom", "tb"]) ∧
    run_with_timeout (FuncOutcome.diverge : FuncOutcome (Option Nat)) 10
      = (none, some ["Program execution timed out after 10 seconds"]) := by
  refine ⟨(run_with_timeout_contract Nat (FuncOutcome.ret (some 3)) 10).1 (some 3) rfl,
    (run_with_timeout_contract Nat (FuncOutcome.exc "boom" "tb") 10).2.1 "boom" "tb" rfl,
    ((run_with_timeout_contract Nat FuncOutcome.diverge 10).2.2 rfl).trans ?_⟩
  decide

/-- Claim C9: a worker that finishes by raising a BaseException outside the
Exception class (such as the SystemExit raised by sys.exit) records neither
a result nor an error, so run_with_timeout returns (no value, no error) —
the same pair a normal run returning None produces. -/
theorem run_with_timeout_base_exception (α : Type) (m : String) (t : Nat) :
    run_with_timeout (FuncOutcome.baseExc m : FuncOutcome (Option α)) t
        = (none, none) ∧
    run_with_timeout (FuncOutcome.baseExc m : FuncOutcome (Option α)) t
        = run_with_timeout (FuncOutcome.ret none) t := by
  constructor <;> simp [run_with_timeout, workerRun]

/-- Claim C7: on every path through capture_output_and_files — normal
return, entry-point error, timeout (all within CapturePath.normal), missing
main, or an exception raised inside the wrapped phase itself — the global
input function is restored to the one installed before capture began. -/
theorem capture_restores_input (module : Module) (input_prompts : List String)
    (path : CapturePath) (g : Globals) :
    (capture_output_and_files module input_prompts path g).2 = g := by
  cases g
  rfl

/-- Claim C2: a mocked input call with the cursor inside the script echoes
the current scripted line, advances the cursor and returns that line; a
call with the cursor at or past the end returns the fallback value 9
without advancing and without echoing it (the transcript only gains the
flushed stdout lines and the prompt). -/
theorem mock_input_cursor (input_prompts : List String) (prompt : String)
    (st : CaptureState) :
    (st.input_idx < input_prompts.length →
      (mock_input input_prompts prompt st).1
          = input_prompts.getD st.input_idx "" ∧
      (mock_input input_prompts prompt st).2.input_idx = st.input_idx + 1 ∧
      (mock_input input_prompts prompt st).2.captured_lines =
        st.captured_lines ++ pySplitlines st.stdout_buffer
          ++ (if prompt ≠ "" then [pyRstrip prompt] else [])
          ++ [input_prompts.getD st.input_idx ""]) ∧
    (input_prompts.length ≤ st.input_idx →
      (mock_input input_prompts prompt st).1 = "9" ∧
      (mock_input input_prompts prompt st).2.input_idx = st.input_idx ∧
      (mock_input input_prompts prompt st).2.captured_lines =
        st.captured_lines ++ pySplitlines st.stdout_buffer
          ++ (if prompt ≠ "" then [pyRstrip prompt] else [])) := by
  obtain ⟨c, i, buf⟩ := st
  rw [mock_input_run]
  constructor
  · intro h
    simp [h, List.append_assoc]
  · intro h
    have hn : ¬ i < input_prompts.length := not_lt.mpr h
    simp [hn, List.append_assoc]

/-- Witness for C2: a two-line script, one call at cursor 0 and one at
cursor 2. -/
theorem mock_input_cursor_witness :
    (mock_input ["5", "3"] "" ⟨[], 0, ""⟩).1 = "5" ∧
    (mock_input ["5", "3"] "" ⟨[], 0, ""⟩).2.input_idx = 1 ∧
    (mock_input ["5", "3"] "" ⟨[], 0, ""⟩).2.captured_lines = ["5"] ∧
    (mock_input ["5", "3"] "" ⟨[], 2, ""⟩).1 = "9" ∧
    (mock_input ["5", "3"] "" ⟨[], 2, ""⟩).2.input_idx = 2 ∧
    (mock_input ["5", "3"] "" ⟨[], 2, ""⟩).2.captured_lines = [] := by
  obtain ⟨h1, h2, h3⟩ := (mock_input_cursor ["5", "3"] "" ⟨[], 0, ""⟩).1 (by decide)
  obtain ⟨h4, h5, h6⟩ := (mock_input_cursor ["5", "3"] "" ⟨[], 2, ""⟩).2 (by decide)
  exact ⟨h1.trans (by decide), h2, h3.trans (by decide),
    h4, h5, h6.trans (by decide)⟩

/-- Counterexample to claim C3 as stated: the transcript line for the
prompt is the prompt with trailing whitespace stripped, not the prompt text
itself.  With prompt 'Q: ' and script line '5' the transcript is
['Q:', '5'], not ['Q: ', '5']. -/
theorem capture_prompt_rstripped_counterexample :
    (capture_output_and_files ⟨true, [Ev.inp "Q: "], FuncOutcome.ret none⟩
        ["5"] CapturePath.normal ⟨InputSlot.builtin⟩).1 = ["Q:", "5"] ∧
    (capture_output_and_files ⟨true, [Ev.inp "Q: "], FuncOutcome.ret none⟩
        ["5"] CapturePath.normal ⟨InputSlot.builtin⟩).1 ≠ ["Q: ", "5"] := by
  decide

/-- Claim C3 (amended: the prompt is logged with its trailing whitespace
stripped): for an entry point that returns normally and calls input exactly
once against a non-empty script, the transcript is the lines printed before
the call, then the rstripped prompt when non-empty, then the scripted
value, then the lines printed after the call. -/
theorem capture_single_input_transcript (before after : List String)
    (prompt : String) (input_prompts : List String) (g : Globals)
    (h : 0 < input_prompts.length) :
    (capture_output_and_files
        ⟨true, before.map Ev.prnt ++ [Ev.inp prompt] ++ after.map Ev.prnt,
          FuncOutcome.ret none⟩ input_prompts CapturePath.normal g).1
      = pySplitlines (joinNl before)
          ++ (if prompt ≠ "" then [pyRstrip prompt] else [])
          ++ [input_prompts.getD 0 ""]
          ++ pySplitlines (joinNl after) := by
  have e : before.map Ev.prnt ++ [Ev.inp prompt] ++ after.map Ev.prnt
      = toEvents [(before, prompt)] after := by
    simp [toEvents]
  rw [e, capture_segments]
  simp [transcriptSpec, h, List.append_assoc]

/-- Witness for C3 (amended) at a concrete one-input program. -/
theorem capture_single_input_transcript_witness :
    (capture_output_and_files
        ⟨true, [Ev.prnt "a", Ev.inp "Q: ", Ev.prnt "b"], FuncOutcome.ret none⟩
        ["5"] CapturePath.normal ⟨InputSlot.builtin⟩).1
      = ["a", "Q:", "5", "b"] := by
  have h := capture_single_input_transcript ["a"] ["b"] "Q: " ["5"]
    ⟨InputSlot.builtin⟩ (by decide)
  exact h.trans (by decide)

/-- Counterexample to claim C10 as stated: the flush that happens once
after execution (grader.py lines 107-110) copies the remaining buffer into
the transcript but does not truncate it — after capturing a single print,
the buffer still holds the printed text. -/
theorem final_flush_no_truncate_counterexample :
    (capture_body ⟨true, [Ev.prnt "x"], FuncOutcome.ret none⟩ []).captured_lines
        = ["x"] ∧
    (capture_body ⟨true, [Ev.prnt "x"], FuncOutcome.ret none⟩ []).stdout_buffer
        = "x\n" ∧
    (capture_body ⟨true, [Ev.prnt "x"], FuncOutcome.ret none⟩ []).stdout_buffer
        ≠ "" := by
  decide

/-- Claim C10 (amended: only the per-call flushes truncate; the final flush
does not, but no flush follows it): each chunk of program output appears
exactly once in the transcript — the full run of a segmented program yields
the compositional transcript in which every print block contributes its
lines once — and every mocked input call leaves the buffer truncated. -/
theorem flush_no_duplication (input_prompts : List String)
    (segs : List (List String × String)) (tailPrints : List String)
    (g : Globals) :
    (capture_output_and_files
        ⟨true, toEvents segs tailPrints, FuncOutcome.ret none⟩ input_prompts
        CapturePath.normal g).1
      = transcriptSpec input_prompts 0 segs tailPrints ∧
    (∀ prompt st, (mock_input input_prompts prompt st).2.stdout_buffer = "") := by
  refine ⟨capture_segments input_prompts segs tailPrints g, ?_⟩
  intro prompt st
  obtain ⟨c, i, buf⟩ := st
  rw [mock_input_run]

/-- A module without a main attribute produces exactly the
missing-entry-point message as its transcript. -/
theorem capture_output_no_main (module : Module) (P : List String) (g : Globals)
    (h : module.hasMain = false) :
    (capture_output_and_files module P CapturePath.normal g).1 = [noMainMsg] := by
  show (capture_body module P).captured_lines = _
  simp [capture_body, h, pySplitlines_empty]

theorem intercalate_singleton (s x : String) : String.intercalate s [x] = x := rfl

/-- Claim C8: for a submission module lacking a main attribute (all other
pipeline steps succeeding), execution is skipped, the transcript is exactly
the missing-entry-point message, and process_project still writes a results
file containing that transcript into the submission's folder. -/
theorem no_main_results (env : ProcEnv) (module : Module) (content : String)
    (himp : env.importResult = ImportOutcome.ok module)
    (hmain : module.hasMain = false)
    (hin : env.inputContent = Except.ok content)
    (hpath : env.capturePath = CapturePath.normal)
    (hcr : env.createRaises = none)
    (hwr : env.writeRaises = none)
    (hmv : env.moveRaises = none) :
    (capture_output_and_files module (load_input_prompts content)
        CapturePath.normal ⟨InputSlot.builtin⟩).1 = [noMainMsg] ∧
    process_project env = Except.ok
      (ProcResult.success (create_project_folder env.project_file) noMainMsg
        env.srcExists) := by
  refine ⟨capture_output_no_main module _ _ hmain, ?_⟩
  simp only [process_project, process_project_try, hcr, himp, hin, hpath, hwr]
  rw [capture_output_no_main module (load_input_prompts content)
    ⟨InputSlot.builtin⟩ hmain]
  by_cases hs : env.srcExists <;> simp [hs, hmv, intercalate_singleton]

/-- Witness for C8 at a concrete mainless submission. -/
theorem no_main_results_witness :
    (capture_output_and_files ⟨false, [], FuncOutcome.ret none⟩
        (load_input_prompts "1\n") CapturePath.normal ⟨InputSlot.builtin⟩).1
      = [noMainMsg] ∧
    process_project
        ⟨"student1.py", none, ImportOutcome.ok ⟨false, [], FuncOutcome.ret none⟩,
          Except.ok "1\n", CapturePath.normal, none, true, none, none, none,
          "tb"⟩
      = Except.ok (ProcResult.success "student1" noMainMsg true) := by
  have h := no_main_results
    ⟨"student1.py", none, ImportOutcome.ok ⟨false, [], FuncOutcome.ret none⟩,
      Except.ok "1\n", CapturePath.normal, none, true, none, none, none, "tb"⟩
    ⟨false, [], FuncOutcome.ret none⟩ "1\n" rfl rfl rfl rfl rfl rfl rfl
  exact ⟨h.1, h.2.trans (by decide)⟩

/-- Counterexample to claim C4 as stated: a missing input.txt is caught by
the except clause of process_project like any other per-submission error
(the submission is error-archived, nothing propagates), and the batch
proceeds to the next submission. -/
theorem missing_input_not_fatal_counterexample :
    process_project
        ⟨"s1.py", none, ImportOutcome.ok ⟨true, [], FuncOutcome.ret none⟩,
          Except.error "No such file or directory: input.txt",
          CapturePath.normal, none, true, none, none, none, "tb"⟩
      = Except.ok (ProcResult.errorArchived "s1"
          "Error processing project: No such file or directory: input.txt\ntb"
          true) ∧
    grader_main
        [⟨"s1.py", none, ImportOutcome.ok ⟨true, [], FuncOutcome.ret none⟩,
            Except.error "No such file or directory: input.txt",
            CapturePath.normal, none, true, none, none, none, "tb"⟩,
          ⟨"s2.py", none, ImportOutcome.ok ⟨true, [], FuncOutcome.ret none⟩,
            Except.ok "1\n", CapturePath.normal, none, true, none, none, none,
            ""⟩]
      = Except.ok
          [ProcResult.errorArchived "s1"
              "Error processing project: No such file or directory: input.txt\ntb"
              true,
            ProcResult.success "s2" "" true] := by
  decide

/-- Claim C4 (amended: a missing input script is not fatal; no Exception is):
every Exception-level per-submission failure — including inability to read
the Input Script — is caught and error-archived, and the batch processes
every submission whenever no submission's import raises a BaseException;
the one path that does abort the batch is a BaseException (such as the
SystemExit of a top-level sys.exit()) raised while importing a submission,
which the except clause does not catch. -/
theorem per_submission_errors_not_fatal :
    (∀ env : ProcEnv, env.importResult.isBaseExc = false →
      ∃ r, process_project env = Except.ok r) ∧
    (∀ envs : List ProcEnv,
      (∀ env ∈ envs, env.importResult.isBaseExc = false) →
      ∃ rs, grader_main envs = Except.ok rs ∧ rs.length = envs.length) ∧
    (∀ (env : ProcEnv) (rest : List ProcEnv) (m : String),
      env.importResult = ImportOutcome.baseExc m → env.createRaises = none →
      grader_main (env :: rest) = Except.error m) := by
  have hproc : ∀ env : ProcEnv, env.importResult.isBaseExc = false →
      ∃ r, process_project env = Except.ok r := by
    intro env hbe
    unfold process_project process_project_try
    cases hc : env.createRaises with
    | some mm => exact ⟨_, rfl⟩
    | none =>
      cases hi : env.importResult with
      | baseExc mm =>
        rw [hi] at hbe
        exact absurd hbe (by simp [ImportOutcome.isBaseExc])
      | exc mm => exact ⟨_, rfl⟩
      | ok module =>
        cases env.inputContent with
        | error mm => exact ⟨_, rfl⟩
        | ok content =>
          cases env.writeRaises with
          | some mm => exact ⟨_, rfl⟩
          | none =>
            cases hs : env.srcExists with
            | false => exact ⟨_, rfl⟩
            | true =>
              cases env.moveRaises with
              | some mm => exact ⟨_, rfl⟩
              | none => exact ⟨_, rfl⟩
  refine ⟨hproc, ?_, ?_⟩
  · intro envs hall
    induction envs with
    | nil => exact ⟨[], rfl, rfl⟩
    | cons env rest ih =>
      obtain ⟨rs, hok, hlen⟩ := ih fun e he => hall e (List.mem_cons_of_mem env he)
      obtain ⟨r, hr⟩ := hproc env (hall env (List.mem_cons_self env rest))
      refine ⟨r :: rs, ?_, by simp [hlen]⟩
      simp [grader_main, hr, hok]
  · intro env rest m him hcr
    have hpe : process_project env = Except.error m := by
      unfold process_project process_project_try
      rw [hcr, him]
    simp [grader_main, hpe]

/-- Witness for C4 (amended): a batch whose only submission cannot read
input.txt still completes with one archived result, while a submission
whose import raises SystemExit aborts the batch. -/
theorem per_submission_errors_not_fatal_witness :
    (∃ r, process_project
        ⟨"s1.py", none, ImportOutcome.ok ⟨true, [], FuncOutcome.ret none⟩,
          Except.error "No such file or directory: input.txt",
          CapturePath.normal, none, true, none, none, none, "tb"⟩
      = Except.ok r) ∧
    (∃ rs, grader_main
        [⟨"s1.py", none, ImportOutcome.ok ⟨true, [], FuncOutcome.ret none⟩,
            Except.error "No such file or directory: input.txt",
            CapturePath.normal, none, true, none, none, none, "tb"⟩]
      = Except.ok rs ∧ rs.length = 1) ∧
    grader_main
        [⟨"s3.py", none, ImportOutcome.baseExc "SystemExit: 0",
            Except.ok "1\n", CapturePath.normal, none, true, none, none, none,
            ""⟩]
      = Except.error "SystemExit: 0" := by
  refine ⟨per_submission_errors_not_fatal.1 _ (by decide),
    per_submission_errors_not_fatal.2.1 _ (by decide),
    per_submission_errors_not_fatal.2.2 _ [] "SystemExit: 0" rfl rfl⟩

/-! ## Folder-name derivation proofs (claim C6) -/

theorem replacePy_cons3 (c p q : Char) (rest : List Char) :
    replacePy (c :: p :: q :: rest) =
      if startsWithPy (c :: p :: q :: rest) then replacePy rest
      else c :: replacePy (p :: q :: rest) := by
  simp only [replacePy]

theorem containsPy_cons (c : Char) (rest : List Char) :
    containsPy (c :: rest) = (startsWithPy (c :: rest) || containsPy rest) := rfl

/-- Removing every '.py' occurrence from a name built as a '.py'-free stem
followed by the '.py' extension leaves exactly the stem: the appended
extension, starting with a dot, can neither survive nor combine with the
stem's tail into an earlier occurrence. -/
theorem replacePy_append_pyExt : ∀ (stem : List Char),
    containsPy stem = false → replacePy (stem ++ pyExt) = stem
  | [], _ => by decide
  | [c], _ => by
    show replacePy (c :: '.' :: 'p' :: 'y' :: []) = [c]
    rw [replacePy_cons3]
    have hsw : startsWithPy (c :: '.' :: 'p' :: 'y' :: []) = false := by
      show (c == '.' && ('.' == 'p') && ('p' == 'y')) = false
      simp [show (('.' : Char) == 'p') = false from rfl]
    rw [hsw]
    simp [show replacePy ('.' :: 'p' :: 'y' :: []) = [] from by decide]
  | [c, d], _ => by
    show replacePy (c :: d :: '.' :: 'p' :: 'y' :: []) = [c, d]
    rw [replacePy_cons3]
    have hsw : startsWithPy (c :: d :: '.' :: 'p' :: 'y' :: []) = false := by
      show (c == '.' && (d == 'p') && ('.' == 'y')) = false
      simp [show (('.' : Char) == 'y') = false from rfl]
    rw [hsw]
    rw [replacePy_cons3]
    have hsw2 : startsWithPy (d :: '.' :: 'p' :: 'y' :: []) = false := by
      show (d == '.' && ('.' == 'p') && ('p' == 'y')) = false
      simp [show (('.' : Char) == 'p') = false from rfl]
    rw [hsw2]
    simp [show replacePy ('.' :: 'p' :: 'y' :: []) = [] from by decide]
  | c :: p :: q :: t, h => by
    have h' := h
    rw [containsPy_cons] at h'
    rcases Bool.or_eq_false_iff.mp h' with ⟨hs1, hs2⟩
    show replacePy (c :: p :: q :: (t ++ pyExt)) = c :: p :: q :: t
    rw [replacePy_cons3]
    have hsw : startsWithPy (c :: p :: q :: (t ++ pyExt)) = false := hs1
    rw [hsw]
    have ih : replacePy (p :: q :: (t ++ pyExt)) = p :: q :: t :=
      replacePy_append_pyExt (p :: q :: t) hs2
    simp [ih]

/-- Counterexample to claim C6 as stated: replace removes every occurrence
of '.py', not only a trailing extension.  On 'a.pyb.py' the derived folder
name is 'ab', while stripping only the suffix gives 'a.pyb'. -/
theorem create_project_folder_counterexample :
    create_project_folder "a.pyb.py" = "ab" ∧
    create_project_folder "a.pyb.py" ≠ ⟨stripPySuffix ("a.pyb.py".data)⟩ ∧
    (⟨stripPySuffix ("a.pyb.py".data)⟩ : String) = "a.pyb" := by
  decide

/-- Claim C6 (amended: the derived folder name removes every occurrence of
the substring '.py'): whenever '.py' occurs in the file name only as the
trailing extension, the result coincides with the name with its suffix
stripped, i.e. the stem. -/
theorem create_project_folder_contract (stem : List Char)
    (h : containsPy stem = false) :
    create_project_folder ⟨stem ++ pyExt⟩ = ⟨stem⟩ ∧
    create_project_folder ⟨stem ++ pyExt⟩ = ⟨stripPySuffix (stem ++ pyExt)⟩ := by
  have hmain : create_project_folder ⟨stem ++ pyExt⟩ = ⟨stem⟩ := by
    show (⟨replacePy (stem ++ pyExt)⟩ : String) = ⟨stem⟩
    rw [replacePy_append_pyExt stem h]
  refine ⟨hmain, hmain.trans ?_⟩
  have hsuf : stripPySuffix (stem ++ pyExt) = stem := by
    unfold stripPySuffix
    rw [if_pos]
    · rw [List.length_append]
      rw [show pyExt.length = 3 from rfl]
      rw [Nat.add_sub_cancel]
      exact List.take_left stem pyExt
    · exact List.isSuffixOf_iff_suffix.mpr (List.suffix_append stem pyExt)
  rw [hsuf]

/-- Witness for C6 (amended) at the stem 'hello'. -/
theorem create_project_folder_contract_witness :
    create_project_folder "hello.py" = "hello" := by
  have h := create_project_folder_contract ("hello".data) (by decide)
  have e : (⟨"hello".data ++ pyExt⟩ : String) = "hello.py" := by decide
  rw [e] at h
  exact h.1.trans (by decide)

/-! ## Input-loader proofs (claim C5) -/

theorem head_dropWhile_false {α : Type} (p : α → Bool) (l : List α) (c : α)
    (h : (l.dropWhile p).head? = some c) : p c = false := by
  induction l with
  | nil => simp [List.dropWhile_nil] at h
  | cons a t ih =>
    by_cases hp : p a
    · rw [List.dropWhile_cons_of_pos hp] at h
      exact ih h
    · rw [List.dropWhile_cons_of_neg hp] at h
      simp only [List.head?_cons, Option.some.injEq] at h
      subst h
      simpa using hp

/-- Python strip decomposition: every line is a whitespace-only prefix,
then the stripped core (whose ends are not whitespace), then a
whitespace-only suffix. -/
theorem pyStripL_spec (l : List Char) :
    ∃ pre post : List Char,
      l = pre ++ pyStripL l ++ post ∧
      pre.all isPySpace ∧ post.all isPySpace ∧
      (∀ c, (pyStripL l).head? = some c → isPySpace c = false) ∧
      (∀ c, (pyStripL l).getLast? = some c → isPySpace c = false) := by
  have key : pyStripLeftL l
      = pyStripL l ++ ((pyStripLeftL l).reverse.takeWhile isPySpace).reverse :=
    calc pyStripLeftL l = (pyStripLeftL l).reverse.reverse :=
          (List.reverse_reverse _).symm
      _ = ((pyStripLeftL l).reverse.takeWhile isPySpace
            ++ (pyStripLeftL l).reverse.dropWhile isPySpace).reverse := by
          rw [List.takeWhile_append_dropWhile]
      _ = ((pyStripLeftL l).reverse.dropWhile isPySpace).reverse
            ++ ((pyStripLeftL l).reverse.takeWhile isPySpace).reverse := by
          rw [List.reverse_append]
      _ = pyStripL l ++ ((pyStripLeftL l).reverse.takeWhile isPySpace).reverse :=
          rfl
  refine ⟨l.takeWhile isPySpace,
    ((pyStripLeftL l).reverse.takeWhile isPySpace).reverse, ?_, ?_, ?_, ?_, ?_⟩
  · conv_lhs => rw [← List.takeWhile_append_dropWhile (p := isPySpace) (l := l)]
    rw [List.append_assoc, ← key]
    rfl
  · exact List.all_eq_true.mpr fun x hx => List.mem_takeWhile_imp hx
  · exact List.all_eq_true.mpr fun x hx =>
      List.mem_takeWhile_imp (List.mem_reverse.mp hx)
  · intro c hc
    have hmem : (pyStripLeftL l).head? = some c := by
      rw [key]
      cases hS : pyStripL l with
      | nil => rw [hS] at hc; simp at hc
      | cons a t =>
        rw [hS] at hc
        simp only [List.head?_cons, Option.some.injEq] at hc
        subst hc
        rfl
    exact head_dropWhile_false isPySpace l c hmem
  · intro c hc
    have hrev : ((pyStripLeftL l).reverse.dropWhile isPySpace).head? = some c := by
      have : (pyStripL l).getLast? = some c := hc
      rw [show pyStripL l
          = ((pyStripLeftL l).reverse.dropWhile isPySpace).reverse from rfl] at this
      rwa [List.getLast?_reverse] at this
    exact head_dropWhile_false isPySpace (pyStripLeftL l).reverse c hrev

/-- Counterexample to claim C5 as stated: the loader strips leading
whitespace as well (line.strip(), not line.rstrip()). -/
theorem load_input_prompts_counterexample :
    load_input_prompts "  a \nb\n" = ["a", "b"] ∧
    load_input_prompts "  a \nb\n"
      ≠ (pyReadlines ("  a \nb\n").data).map (fun l => ⟨pyStripRightL l⟩) := by
  decide

/-- Claim C5 (amended: both leading and trailing whitespace are stripped):
the loader returns one entry per line of the file, in file order, each
entry being its line with a whitespace-only prefix and suffix removed and
with no whitespace left at either end. -/
theorem load_input_prompts_strips (content : String) :
    (load_input_prompts content).length = (pyReadlines content.data).length ∧
    (∀ i, i < (pyReadlines content.data).length →
      ∃ pre post : List Char,
        (pyReadlines content.data).getD i [] =
          pre ++ ((load_input_prompts content).getD i "").data ++ post ∧
        pre.all isPySpace ∧ post.all isPySpace ∧
        (∀ c, (((load_input_prompts content).getD i "").data).head? = some c →
          isPySpace c = false) ∧
        (∀ c, (((load_input_prompts content).getD i "").data).getLast? = some c →
          isPySpace c = false)) := by
  constructor
  · simp [load_input_prompts]
  · intro i hi
    have hentry : ((load_input_prompts content).getD i "").data
        = pyStripL ((pyReadlines content.data).getD i []) := by
      simp [load_input_prompts, List.getD_eq_getElem?_getD, List.getElem?_map,
        List.getElem?_eq_getElem hi]
    rw [hentry]
    exact pyStripL_spec ((pyReadlines content.data).getD i [])

/-- Witness for C5 (amended) on the file content ' x \n'. -/
theorem load_input_prompts_strips_witness :
    (load_input_prompts " x \n").length = (pyReadlines (" x \n").data).length ∧
    ∃ pre post : List Char,
      (pyReadlines (" x \n").data).getD 0 [] =
        pre ++ ((load_input_prompts " x \n").getD 0 "").data ++ post ∧
      pre.all isPySpace ∧ post.all isPySpace := by
  obtain ⟨hlen, h⟩ := load_input_prompts_strips " x \n"
  obtain ⟨pre, post, h1, h2, h3, _, _⟩ := h 0 (by decide)
  exact ⟨hlen, pre, post, h1, h2, h3⟩

end Grader
